import Mathlib

/-!
Shallow embedding of the classification-and-citation engine of
`dev-instructions/scripts/requirements2pdf.py`: the dotted-path resolver
(`_get_by_dotted_path`), the leaf-operator evaluator (`_eval_op`), the match
expression evaluator (`_eval_match_expr`), the section assigner
(`_assign_brd_section_id`), the section-id coercion (`_coerce_brd_section_id`),
the taxonomy loader (`_load_brd_sections`), the classification-index build loop
and the bibliography numbering from `build_pdf`.

JSON values as produced by `json.load` are modelled by `JValue`; Python `None`
is `JValue.null` (which is also what `dict.get` yields for a missing key).
JSON numbers are modelled as integers; no claim concerns floating point.
Python dicts are modelled as association lists in insertion order.
-/

set_option maxHeartbeats 1000000

/-- A parsed JSON value (Python object as loaded by `json.load`).
`null` doubles as Python `None`, including the `None` that `dict.get`
returns for a missing key. -/
inductive JValue where
  | null : JValue
  | bool (b : Bool) : JValue
  | num (n : Int) : JValue
  | str (s : String) : JValue
  | list (xs : List JValue) : JValue
  | dict (entries : List (String × JValue)) : JValue

/-- A Python `dict[str, Any]` in insertion order. -/
abbrev PyDict := List (String × JValue)

/-- Python `k in d` / `d.get(k)` on a dict: the entry for the first matching
key, if any. -/
def findEntry (m : PyDict) (k : String) : Option JValue :=
  match m with
  | [] => none
  | (k', v) :: rest => if k' = k then some v else findEntry rest k

/-- Python `d.get(k)`: the stored value, or `None` for a missing key. -/
def jget (m : PyDict) (k : String) : JValue :=
  (findEntry m k).getD .null

/-- `d.get(k)` where the receiver may be any value; callers in the source only
apply it to dicts. -/
def jgetV (v : JValue) (k : String) : JValue :=
  match v with
  | .dict m => jget m k
  | _ => .null

/-- `isinstance(v, dict)`. -/
def JValue.isDict : JValue → Bool
  | .dict _ => true
  | _ => false

/-- `isinstance(v, str)`. -/
def JValue.isStr : JValue → Bool
  | .str _ => true
  | _ => false

/-- `isinstance(v, list)`. -/
def JValue.isList : JValue → Bool
  | .list _ => true
  | _ => false

/-- Python `v is None`. -/
def JValue.isNull : JValue → Bool
  | .null => true
  | _ => false

/-- Python truthiness `bool(v)` on a JSON value. -/
def truthy : JValue → Bool
  | .null => false
  | .bool b => b
  | .num n => n != 0
  | .str s => s ≠ ""
  | .list xs => !xs.isEmpty
  | .dict m => !m.isEmpty

theorem sizeOf_findEntry {m : PyDict} {k : String} {v : JValue}
    (h : findEntry m k = some v) : sizeOf v < sizeOf m := by
  induction m with
  | nil => simp [findEntry] at h
  | cons e rest ih =>
    obtain ⟨k', v'⟩ := e
    by_cases hk : k' = k
    · simp [findEntry, hk] at h
      subst h
      simp
      omega
    · simp [findEntry, hk] at h
      have := ih h
      simp
      omega

/-- Membership of `needle` as a contiguous sublist of `hay`
(Python `needle in hay` for strings, on the character lists). -/
def subList (needle : List Char) : List Char → Bool
  | [] => needle.isEmpty
  | c :: rest => needle.isPrefixOf (c :: rest) || subList needle rest

/-- Python substring test `needle in hay`. -/
def strContains (hay needle : String) : Bool :=
  subList needle.data hay.data

/-- Python `s.strip()`: drop leading and trailing whitespace. -/
def pyStrip (s : String) : String :=
  ⟨((s.data.dropWhile Char.isWhitespace).reverse.dropWhile Char.isWhitespace).reverse⟩

/-- Python `s.lower()` (ASCII case folding). -/
def pyLower (s : String) : String :=
  ⟨s.data.map Char.toLower⟩

/-- Helper for `pySplitDot`: accumulate the current field (reversed). -/
def splitDotAux : List Char → List Char → List String
  | [], acc => [⟨acc.reverse⟩]
  | c :: rest, acc =>
    if c = '.' then ⟨acc.reverse⟩ :: splitDotAux rest [] else splitDotAux rest (c :: acc)

/-- Python `s.split(".")`: fields between the dots; an empty string yields
one empty field. -/
def pySplitDot (s : String) : List String :=
  splitDotAux s.data []

/-- Python `s.startswith(p)`. -/
def pyStartsWith (s p : String) : Bool :=
  p.data.isPrefixOf s.data

/-- Python `s[len(p):]`: drop the first `p.length` characters. -/
def pyDropPrefix (s p : String) : String :=
  ⟨s.data.drop p.data.length⟩

/-- Python `==` between two JSON values: structural equality with the numeric
coercion `True == 1`, `False == 0`.  Dict comparison here is in insertion
order (Python compares dicts by key set; no code path compared by any claim
applies `==` to dicts). -/
def jeq : JValue → JValue → Bool
  | .null, .null => true
  | .bool a, .bool b => a == b
  | .bool a, .num n => n == (if a then 1 else 0)
  | .num n, .bool a => n == (if a then 1 else 0)
  | .num a, .num b => a == b
  | .str a, .str b => a == b
  | .list a, .list b =>
    a.length == b.length &&
      (a.zip b).attach.all fun p => jeq p.1.1 p.1.2
  | .dict a, .dict b =>
    a.length == b.length &&
      a.attach.all fun e =>
        match findEntry b e.1.1 with
        | some w => jeq e.1.2 w
        | none => false
  | _, _ => false
termination_by x _ => sizeOf x
decreasing_by
  · obtain ⟨⟨x, y⟩, hmem⟩ := p
    have hx := List.sizeOf_lt_of_mem (List.of_mem_zip hmem).1
    simp
    omega
  · obtain ⟨⟨ek, ev⟩, hmem⟩ := e
    have hx := List.sizeOf_lt_of_mem hmem
    simp at hx
    simp
    omega

/-- `_get_by_dotted_path`'s traversal loop: walk one key at a time; a non-dict
mid-path yields `None`. -/
def walkPath : JValue → List String → JValue
  | cur, [] => cur
  | cur, p :: rest =>
    match cur with
    | .dict m => walkPath (jget m p) rest
    | _ => .null

/-- `_get_by_dotted_path(obj, dotted)`: strip a leading `requirement.` prefix
(a bare `requirement` returns the whole record), split on `.`, walk the
record.  Blank paths resolve to `None`. -/
def get_by_dotted_path (obj : JValue) (dotted : String) : JValue :=
  if pyStrip dotted = "" then .null
  else
    let path := pyStrip dotted
    if pyStartsWith path "requirement." then
      walkPath obj (pySplitDot (pyDropPrefix path "requirement."))
    else if path = "requirement" then obj
    else walkPath obj (pySplitDot path)

/-- `_eval_op(value, op, expected)`: the typed leaf comparison.  Unknown
operators yield `false`. -/
def eval_op (value : JValue) (op : String) (expected : JValue) : Bool :=
  if op = "exists" then
    let ex := !value.isNull
    match expected with
    | .bool b => ex == b
    | _ => ex
  else if op = "eq" then jeq value expected
  else if op = "in" then
    match expected with
    | .list xs => xs.any fun x => jeq value x
    | _ => false
  else if op = "contains" then
    match value with
    | .list xs => xs.any fun x => jeq expected x
    | .str s =>
      match expected with
      | .str e => strContains s e
      | _ => false
    | _ => false
  else if op = "containsText" then
    match expected with
    | .str e =>
      let needle := pyLower e
      match value with
      | .str s => strContains (pyLower s) needle
      | .list xs =>
        xs.any fun v =>
          match v with
          | .str s => strContains (pyLower s) needle
          | _ => false
      | _ => false
    | _ => false
  else false

mutual

/-- `_eval_match_expr(requirement, expr)`: a non-dict is `false`; an `any` key
takes priority over `all`; a combinator whose body is not a list is `false`;
otherwise a leaf needs string `field` and `op` and delegates to the path
resolver and the operator evaluator.  Total by construction: evaluation
never raises. -/
def eval_match_expr (req : JValue) : JValue → Bool
  | .dict m =>
    match h1 : findEntry m "any" with
    | some (.list xs) => eval_any req xs
    | some _ => false
    | none =>
      match h2 : findEntry m "all" with
      | some (.list xs) => eval_all req xs
      | some _ => false
      | none =>
        match jget m "field", jget m "op" with
        | .str f, .str o => eval_op (get_by_dotted_path req f) o (jget m "value")
        | _, _ => false
  | _ => false
termination_by e => sizeOf e
decreasing_by
  · have := sizeOf_findEntry h1
    simp at this
    simp
    omega
  · have := sizeOf_findEntry h2
    simp at this
    simp
    omega

/-- Python `any(eval(it) for it in items)`. -/
def eval_any (req : JValue) : List JValue → Bool
  | [] => false
  | e :: rest => eval_match_expr req e || eval_any req rest
termination_by l => sizeOf l
decreasing_by
  · simp
    omega
  · simp

/-- Python `all(eval(it) for it in items)`; `all` of an empty list is `true`. -/
def eval_all (req : JValue) : List JValue → Bool
  | [] => true
  | e :: rest => eval_match_expr req e && eval_all req rest
termination_by l => sizeOf l
decreasing_by
  · simp
    omega
  · simp

end

/-- The body of the for-loop of `_assign_brd_section_id` for one section:
`none` when the section is skipped (`continue`: missing, non-string or empty
`id`; missing, non-list or empty `match` list) or no rule of its `match` list
matches; `some sid` when the section's id is appended to `matched`.  The
`match` list is evaluated as an OR across rule blocks. -/
def matched_id (req : JValue) (s : PyDict) : Option String :=
  match findEntry s "id" with
  | some (.str sid) =>
    if sid = "" then none
    else
      match findEntry s "match" with
      | some (.list rules) =>
        if rules.isEmpty then none
        else if rules.any (eval_match_expr req) then some sid
        else none
      | _ => none
  | _ => none

/-- The for-loop of `_assign_brd_section_id`: accumulate matching section
ids; with `first_match_wins` return the first one at once (`.inl`), otherwise
fall out of the loop with the accumulated list (`.inr`). -/
def assignLoop (req : JValue) (fmw : Bool) :
    List PyDict → List String → String ⊕ List String
  | [], matched => .inr matched
  | s :: rest, matched =>
    match matched_id req s with
    | some sid =>
      if fmw then .inl sid else assignLoop req fmw rest (matched ++ [sid])
    | none => assignLoop req fmw rest matched

/-- `bool(assignment_policy.get("firstMatchWins", True))`. -/
def policy_first_match_wins (policy : PyDict) : Bool :=
  match findEntry policy "firstMatchWins" with
  | some v => truthy v
  | none => true

/-- `unassigned_id if isinstance(unassigned_id, str) and unassigned_id else "BRD-99"`
applied to `assignment_policy.get("unassignedSectionId")`. -/
def policy_unassigned (policy : PyDict) : String :=
  match findEntry policy "unassignedSectionId" with
  | some (.str s) => if s = "" then "BRD-99" else s
  | _ => "BRD-99"

/-- `_assign_brd_section_id` after policy parsing: run the loop and, when it
falls through, pick the head of the accumulated list or the unassigned id. -/
def assign_core (req : JValue) (sections : List PyDict) (fmw : Bool)
    (unassigned : String) : String :=
  match assignLoop req fmw sections [] with
  | .inl sid => sid
  | .inr [] => unassigned
  | .inr (sid :: _) => sid

/-- `_assign_brd_section_id(requirement, sections=..., assignment_policy=...)`. -/
def assign_brd_section_id (req : JValue) (sections : List PyDict)
    (policy : PyDict) : String :=
  assign_core req sections (policy_first_match_wins policy) (policy_unassigned policy)

/-- `_coerce_brd_section_id(section_id, valid_ids=..., unassigned_id=...)`. -/
def coerce_brd_section_id (sectionId : JValue) (validIds : List String)
    (unassignedId : String) : String :=
  match sectionId with
  | .str s => if s ∈ validIds then s else unassignedId
  | _ => unassignedId

/-- `_load_brd_sections` on already-parsed JSON (`_load_json` supplies the
parsed value): rejects a non-object, and a missing, non-list or empty
`sections` entry; `Except.error` models the raised `ValueError`. -/
def load_brd_sections (data : JValue) : Except String JValue :=
  match data with
  | .dict m =>
    match findEntry m "sections" with
    | some (.list ss) =>
      if ss.isEmpty then .error "Invalid brd_sections.json (missing sections)"
      else .ok (.dict m)
    | _ => .error "Invalid brd_sections.json (missing sections)"
  | _ => .error "Invalid brd_sections.json (expected object)"

/-- `build_pdf` line 468: keep only the dict entries of `sections`. -/
def sections_of (cfg : JValue) : List PyDict :=
  match jgetV cfg "sections" with
  | .list ss =>
    ss.filterMap fun s =>
      match s with
      | .dict m => some m
      | _ => none
  | _ => []

/-- `build_pdf` line 469: the set of string ids of the sections, as a
duplicate-free list.  Python materialises a `set`, whose iteration order is
unspecified; the model keeps first-occurrence order, and the claims use only
membership and emptiness of this set (plus one arbitrary member). -/
def valid_section_ids (sections : List PyDict) : List String :=
  (sections.filterMap fun s =>
    match findEntry s "id" with
    | some (.str t) => some t
    | _ => none).dedup

/-- `_safe_get(dct, path, default)`: walk the keys; a non-dict midway or a
final `None` gives the default. -/
def safe_get (dct : JValue) (path : List String) (dflt : JValue) : JValue :=
  match path with
  | [] => if dct.isNull then dflt else dct
  | k :: rest =>
    match dct with
    | .dict m => safe_get (jget m k) rest dflt
    | _ => dflt

/-- `build_pdf` line 472, the replacement for an invalid configured
unassigned id: `"BRD-99"` when that is a valid id, else an arbitrary member
of the valid id set (`next(iter(...))`, modelled as the first collected id),
else `"BRD-99"` when the set is empty. -/
def fallback_pick (validIds : List String) : String :=
  if "BRD-99" ∈ validIds then "BRD-99"
  else
    match validIds with
    | v :: _ => v
    | [] => "BRD-99"

/-- `build_pdf` lines 470-472: the unassigned id actually used by the run. -/
def effective_unassigned_id (cfg : JValue) : String :=
  match safe_get cfg ["assignmentPolicy", "unassignedSectionId"] (.str "BRD-99") with
  | .str s =>
    if s ∈ valid_section_ids (sections_of cfg) then s
    else fallback_pick (valid_section_ids (sections_of cfg))
  | _ => fallback_pick (valid_section_ids (sections_of cfg))

/-- `build_pdf` line 474: the assignment policy dict, `{}` when absent or
not a dict. -/
def policy_of (cfg : JValue) : PyDict :=
  match jgetV cfg "assignmentPolicy" with
  | .dict m => m
  | _ => []

/-- `build_pdf` line 523: the kind tag of a requirement. -/
def kind_key (req : JValue) : String :=
  match jgetV req "kind" with
  | .str s => if pyStrip s = "" then "Other" else pyStrip s
  | _ => "Other"

/-- `build_pdf` lines 511-520: assign, then coerce against the valid id set. -/
def recorded_section_id (sections : List PyDict) (policy : PyDict)
    (validIds : List String) (unassigned : String) (req : JValue) : String :=
  coerce_brd_section_id (.str (assign_brd_section_id req sections policy))
    validIds unassigned

/-- One entry of a classification bucket: `{"req": req, "docRel": doc_key}`. -/
structure IndexItem where
  req : JValue
  docRel : String

/-- `kind -> list of items`, in insertion order. -/
abbrev KindBuckets := List (String × List IndexItem)

/-- `sectionId -> kind -> list of items`, in insertion order. -/
abbrev SectionIndex := List (String × KindBuckets)

/-- `groups.setdefault(kind, []).append(it)`. -/
def insert_kind (gs : KindBuckets) (kind : String) (it : IndexItem) : KindBuckets :=
  match gs with
  | [] => [(kind, [it])]
  | (k, its) :: rest =>
    if k = kind then (k, its ++ [it]) :: rest
    else (k, its) :: insert_kind rest kind it

/-- `section_index.setdefault(sid, {}).setdefault(kind, []).append(it)`. -/
def insert_index (idx : SectionIndex) (sid kind : String) (it : IndexItem) :
    SectionIndex :=
  match idx with
  | [] => [(sid, [(kind, [it])])]
  | (s, gs) :: rest =>
    if s = sid then (s, insert_kind gs kind it) :: rest
    else (s, gs) :: insert_index rest sid kind it

/-- One input requirement document: its parsed JSON and its file name
(`path.name`, the fallback document key). -/
structure InputDoc where
  data : JValue
  fileName : String

/-- `build_pdf` lines 486-487: the document key. -/
def doc_key (d : InputDoc) : String :=
  match safe_get d.data ["sourceDocument", "relativePath"] .null with
  | .str s => if pyStrip s = "" then d.fileName else pyStrip s
  | _ => d.fileName

/-- `_as_list(value)`. -/
def as_list (v : JValue) : List JValue :=
  match v with
  | .list xs => xs
  | _ => []

/-- `build_pdf` lines 508-509: the dict entries of `data["requirements"]`. -/
def doc_reqs (d : InputDoc) : List JValue :=
  (as_list (jgetV d.data "requirements")).filter JValue.isDict

/-- `build_pdf` lines 510-524: classify every requirement of one document. -/
def process_doc (sections : List PyDict) (policy : PyDict)
    (validIds : List String) (unassigned : String) (idx : SectionIndex)
    (d : InputDoc) : SectionIndex :=
  (doc_reqs d).foldl
    (fun acc req =>
      insert_index acc (recorded_section_id sections policy validIds unassigned req)
        (kind_key req) ⟨req, doc_key d⟩)
    idx

/-- `build_pdf` line 480: `{sid: {} for sid in valid_section_ids}`. -/
def initial_index (validIds : List String) : SectionIndex :=
  validIds.map fun sid => (sid, [])

/-- The whole classification pass of `build_pdf` (lines 480-524). -/
def build_index (sections : List PyDict) (policy : PyDict)
    (validIds : List String) (unassigned : String) (docs : List InputDoc) :
    SectionIndex :=
  docs.foldl (process_doc sections policy validIds unassigned) (initial_index validIds)

/-- `build_pdf` lines 585-589: the stripped non-blank `relativePath` of one
entry of a `references` list. -/
def ref_path (ref : JValue) : Option String :=
  match ref with
  | .dict rm =>
    match findEntry rm "relativePath" with
    | some (.str p) => if pyStrip p = "" then none else some (pyStrip p)
    | _ => none
  | _ => none

/-- `build_pdf` lines 582-591: the reference paths contributed by one index
item (its requirement's `references` plus its origin document key). -/
def item_paths (it : IndexItem) : List String :=
  match it.req with
  | .dict _ =>
    (match jgetV it.req "references" with
     | .list refs => refs.filterMap ref_path
     | _ => []) ++
    (if pyStrip it.docRel = "" then [] else [pyStrip it.docRel])
  | _ => []

/-- The items scanned by the triple loop of `build_pdf` lines 579-581. -/
def flatten_index (idx : SectionIndex) : List IndexItem :=
  idx.flatMap fun sg => sg.2.flatMap fun kb => kb.2

/-- `all_source_relpaths`: the Python set of distinct paths. -/
def all_source_relpaths (items : List IndexItem) : Finset String :=
  (items.flatMap item_paths).toFinset

/-- `bibliography_relpaths = sorted(all_source_relpaths)`. -/
def bibliography_relpaths (items : List IndexItem) : List String :=
  (all_source_relpaths items).sort (· ≤ ·)

/-- `citation_number_by_rel = {rel: idx for idx, rel in enumerate(bibliography_relpaths, start=1)}`. -/
def citation_number_by_rel (items : List IndexItem) : List (String × Nat) :=
  (bibliography_relpaths items).enum.map fun p => (p.2, p.1 + 1)

/-- Total number of items of one section's kind buckets. -/
def kind_buckets_count (gs : KindBuckets) : Nat :=
  (gs.map fun kb => kb.2.length).sum

/-- Total number of items over the whole index. -/
def total_count (idx : SectionIndex) : Nat :=
  (idx.map fun sg => kind_buckets_count sg.2).sum

/-- The item occurs in the bucket for the given section id and kind. -/
def item_mem (idx : SectionIndex) (sid kind : String) (it : IndexItem) : Prop :=
  ∃ gs, (sid, gs) ∈ idx ∧ ∃ its, (kind, its) ∈ gs ∧ it ∈ its

/-- The claim's notion of a section matching a requirement: some entry of the
section's `match` list evaluates to true. -/
def section_matches (req : JValue) (s : PyDict) : Bool :=
  match findEntry s "match" with
  | some (.list rules) => rules.any (eval_match_expr req)
  | _ => false

/-- The id carried by a section, `""` when missing or not a string. -/
def sid_of (s : PyDict) : String :=
  match findEntry s "id" with
  | some (.str t) => t
  | _ => ""

/-- A section the loop of `_assign_brd_section_id` skips outright: id
missing, not a string or empty, or `match` missing, not a list or empty. -/
def section_skipped (s : PyDict) : Bool :=
  (match findEntry s "id" with
   | some (.str t) => t = ""
   | _ => true) ||
  (match findEntry s "match" with
   | some (.list rules) => rules.isEmpty
   | _ => true)

theorem assignLoop_false (req : JValue) (sections : List PyDict)
    (matched : List String) :
    assignLoop req false sections matched =
      .inr (matched ++ sections.filterMap (matched_id req)) := by
  induction sections generalizing matched with
  | nil => simp [assignLoop]
  | cons s rest ih =>
    cases h : matched_id req s with
    | none => simp [assignLoop, h, ih]
    | some sid => simp [assignLoop, h, ih]

theorem assignLoop_true (req : JValue) (sections : List PyDict)
    (matched : List String) :
    assignLoop req true sections matched =
      match sections.filterMap (matched_id req) with
      | [] => .inr matched
      | sid :: _ => .inl sid := by
  induction sections generalizing matched with
  | nil => simp [assignLoop]
  | cons s rest ih =>
    cases h : matched_id req s with
    | none => simp [assignLoop, h, ih]
    | some sid => simp [assignLoop, h]

theorem assign_core_eq (req : JValue) (sections : List PyDict) (fmw : Bool)
    (u : String) :
    assign_core req sections fmw u =
      (sections.filterMap (matched_id req)).headD u := by
  cases fmw
  · rw [assign_core, assignLoop_false]
    cases sections.filterMap (matched_id req) <;> simp
  · rw [assign_core, assignLoop_true]
    cases sections.filterMap (matched_id req) <;> simp

theorem matched_id_valid (req : JValue) (s : PyDict) (t : String)
    (hid : findEntry s "id" = some (JValue.str t)) (ht : t ≠ "") :
    matched_id req s = if section_matches req s then some t else none := by
  unfold matched_id section_matches
  rw [hid]
  simp only [ht, if_false]
  cases hm : findEntry s "match" with
  | none => simp
  | some v =>
    cases v with
    | list rules =>
      by_cases he : rules.isEmpty
      · have hr : rules = [] := List.isEmpty_iff.mp he
        subst hr
        simp
      · by_cases ha : rules.any (eval_match_expr req) = true
        · simp [he, ha]
        · simp [he, ha]
    | null => simp
    | bool b => simp
    | num n => simp
    | str s2 => simp
    | dict m2 => simp

theorem matched_id_skipped (req : JValue) (s : PyDict)
    (h : section_skipped s = true) : matched_id req s = none := by
  unfold section_skipped at h
  unfold matched_id
  cases hid : findEntry s "id" with
  | none => simp
  | some v =>
    rw [hid] at h
    cases v with
    | str t =>
      by_cases ht : t = ""
      · simp [ht]
      · simp only [ht, decide_False, Bool.false_or] at h
        simp only [ht, if_false]
        cases hm : findEntry s "match" with
        | none => simp
        | some w =>
          rw [hm] at h
          cases w <;> simp_all
    | null => simp
    | bool b => simp
    | num n => simp
    | list xs => simp
    | dict m2 => simp

theorem filterMap_matched_headD (req : JValue) (u : String) :
    ∀ sections : List PyDict,
      (∀ s ∈ sections, ∃ t, t ≠ "" ∧ findEntry s "id" = some (JValue.str t)) →
      (sections.filterMap (matched_id req)).headD u =
        match sections.find? (section_matches req) with
        | some s => sid_of s
        | none => u := by
  intro sections
  induction sections with
  | nil => intro _; simp
  | cons s rest ih =>
    intro hids
    obtain ⟨t, ht, hid⟩ := hids s (List.mem_cons_self s rest)
    have hrest := fun x hx => hids x (List.mem_cons_of_mem _ hx)
    rw [List.filterMap_cons, matched_id_valid req s t hid ht]
    by_cases hsm : section_matches req s = true
    · rw [if_pos hsm, List.find?_cons_of_pos _ hsm]
      simp [sid_of, hid]
    · have hsm' : section_matches req s = false := by
        simpa using hsm
      rw [if_neg (by simp [hsm']), List.find?_cons_of_neg _ (by simp [hsm'])]
      exact ih hrest

/-- C4: for every requirement, when firstMatchWins is true (and the policy
carries a non-empty string unassignedSectionId, and every taxonomy section
carries a non-empty string id) the Section Assigner returns the id of the
first section in taxonomy order some entry of whose match list evaluates
true, and the policy's unassignedSectionId when no section matches; in
particular, when the first of two sections matches, its id is returned and
the second section's id never is. -/
theorem c4_first_match_wins (req : JValue) (sections : List PyDict)
    (policy : PyDict) (u : String)
    (hfmw : policy_first_match_wins policy = true)
    (hu : findEntry policy "unassignedSectionId" = some (JValue.str u))
    (hune : u ≠ "")
    (hids : ∀ s ∈ sections, ∃ t, t ≠ "" ∧ findEntry s "id" = some (JValue.str t)) :
    (assign_brd_section_id req sections policy =
      match sections.find? (section_matches req) with
      | some s => sid_of s
      | none => u) ∧
    (∀ (s1 s2 : PyDict) (t1 : String), t1 ≠ "" →
      findEntry s1 "id" = some (JValue.str t1) →
      section_matches req s1 = true →
      assign_brd_section_id req [s1, s2] policy = t1) := by
  have hpu : policy_unassigned policy = u := by
    unfold policy_unassigned
    rw [hu]
    simp [hune]
  constructor
  · rw [assign_brd_section_id, hfmw, hpu, assign_core_eq]
    exact filterMap_matched_headD req u sections hids
  · intro s1 s2 t1 ht1 hid1 hsm1
    rw [assign_brd_section_id, hfmw, hpu, assign_core_eq]
    rw [List.filterMap_cons, matched_id_valid req s1 t1 hid1 ht1, if_pos hsm1]
    simp

/-- C5: the firstMatchWins flag has no effect on the returned section id: for
every requirement, taxonomy and unassigned id the core assigner returns the
same id for both flag values, and `_assign_brd_section_id` returns the same
id when the policy's firstMatchWins entry is replaced by any other value. -/
theorem c5_first_match_wins_inert (req : JValue) (sections : List PyDict)
    (u : String) (b1 b2 : Bool) (p : PyDict) (v w : JValue) :
    assign_core req sections b1 u = assign_core req sections b2 u ∧
    assign_brd_section_id req sections (("firstMatchWins", v) :: p) =
      assign_brd_section_id req sections (("firstMatchWins", w) :: p) := by
  constructor
  · rw [assign_core_eq, assign_core_eq]
  · have hpu : policy_unassigned (("firstMatchWins", v) :: p) =
        policy_unassigned (("firstMatchWins", w) :: p) := by
      unfold policy_unassigned
      simp [findEntry]
    rw [assign_brd_section_id, assign_brd_section_id, assign_core_eq,
      assign_core_eq, hpu]

/-- C10: a taxonomy section whose id is missing, not a string or empty, or
whose match field is missing, not a list or an empty list, is skipped by the
Section Assigner: removing it from the taxonomy (wherever it occurs, even
first) never changes the assigned id, for any requirement and policy. -/
theorem c10_invalid_sections_skipped (req : JValue) (pre post : List PyDict)
    (s : PyDict) (policy : PyDict) (h : section_skipped s = true) :
    assign_brd_section_id req (pre ++ s :: post) policy =
      assign_brd_section_id req (pre ++ post) policy := by
  rw [assign_brd_section_id, assign_brd_section_id, assign_core_eq,
    assign_core_eq, List.filterMap_append, List.filterMap_append,
    List.filterMap_cons, matched_id_skipped req s h]

/-- Witness for C4 at a concrete taxonomy: with the default-true
firstMatchWins and two sections the first of which matches the requirement
(title exists), the assigner returns the first section's id. -/
theorem c4_first_match_wins_witness :
    policy_first_match_wins [("unassignedSectionId", JValue.str "BRD-99")] = true ∧
    assign_brd_section_id (JValue.dict [("title", JValue.str "Login")])
      [[("id", JValue.str "S1"),
        ("match", JValue.list [JValue.dict [("field", JValue.str "requirement.title"),
          ("op", JValue.str "exists"), ("value", JValue.bool true)]])],
       [("id", JValue.str "S2"),
        ("match", JValue.list [JValue.dict [("field", JValue.str "requirement.title"),
          ("op", JValue.str "exists"), ("value", JValue.bool true)]])]]
      [("unassignedSectionId", JValue.str "BRD-99")] = "S1" := by
  constructor
  · rfl
  · exact (c4_first_match_wins (JValue.dict [("title", JValue.str "Login")]) []
      [("unassignedSectionId", JValue.str "BRD-99")] "BRD-99" rfl rfl (by decide)
      (fun s hs => absurd hs (List.not_mem_nil s))).2
      [("id", JValue.str "S1"),
       ("match", JValue.list [JValue.dict [("field", JValue.str "requirement.title"),
         ("op", JValue.str "exists"), ("value", JValue.bool true)]])]
      [("id", JValue.str "S2"),
       ("match", JValue.list [JValue.dict [("field", JValue.str "requirement.title"),
         ("op", JValue.str "exists"), ("value", JValue.bool true)]])]
      "S1" (by decide) rfl
      (by simp [section_matches, findEntry, eval_match_expr, jget, eval_op,
        get_by_dotted_path, pyStrip, pyStartsWith, pyDropPrefix, pySplitDot,
        splitDotAux, walkPath, JValue.isNull])

/-- Witness for C10 at a concrete taxonomy: a first section carrying id S9
but no match list is skipped, so the assignment over the two sections equals
the assignment over just the second. -/
theorem c10_invalid_sections_skipped_witness :
    section_skipped [("id", JValue.str "S9")] = true ∧
    assign_brd_section_id (JValue.dict [("title", JValue.str "Login")])
      ([] ++ [("id", JValue.str "S9")] ::
        [[("id", JValue.str "S1"),
          ("match", JValue.list [JValue.dict [("field", JValue.str "requirement.title"),
            ("op", JValue.str "exists"), ("value", JValue.bool true)]])]]) [] =
    assign_brd_section_id (JValue.dict [("title", JValue.str "Login")])
      ([] ++
        [[("id", JValue.str "S1"),
          ("match", JValue.list [JValue.dict [("field", JValue.str "requirement.title"),
            ("op", JValue.str "exists"), ("value", JValue.bool true)]])]]) [] :=
  ⟨rfl, c10_invalid_sections_skipped (JValue.dict [("title", JValue.str "Login")]) []
    [[("id", JValue.str "S1"),
      ("match", JValue.list [JValue.dict [("field", JValue.str "requirement.title"),
        ("op", JValue.str "exists"), ("value", JValue.bool true)]])]]
    [("id", JValue.str "S9")] [] rfl⟩

/-- Counterexample to C1: an `all` node with an empty list body evaluates to
true, not false — Python `all([])` is vacuously true, so the code has no
special conservative treatment of the empty `all`. -/
theorem c1_empty_all_counterexample :
    eval_match_expr (JValue.dict []) (JValue.dict [("all", JValue.list [])]) = true := by
  simp [eval_match_expr, eval_all, findEntry]

/-- C1 amended: for every requirement, an `any` node with an empty list body
evaluates to false; an `all` node with an empty list body evaluates to TRUE
(vacuously); an `all` or `any` whose body is not a list evaluates to false. -/
theorem c1_empty_combinators (req : JValue) (v : JValue)
    (hv : v.isList = false) :
    eval_match_expr req (JValue.dict [("any", JValue.list [])]) = false ∧
    eval_match_expr req (JValue.dict [("all", JValue.list [])]) = true ∧
    eval_match_expr req (JValue.dict [("any", v)]) = false ∧
    eval_match_expr req (JValue.dict [("all", v)]) = false := by
  refine ⟨?_, ?_, ?_, ?_⟩
  · simp [eval_match_expr, eval_any, findEntry]
  · simp [eval_match_expr, eval_all, findEntry]
  · cases v <;> simp_all [eval_match_expr, findEntry, JValue.isList]
  · cases v <;> simp_all [eval_match_expr, findEntry, JValue.isList]

/-- Witness for C1 amended at a concrete requirement and a concrete non-list
combinator body. -/
theorem c1_empty_combinators_witness :
    JValue.isList (JValue.num 3) = false ∧
    (eval_match_expr (JValue.dict []) (JValue.dict [("any", JValue.list [])]) = false ∧
     eval_match_expr (JValue.dict []) (JValue.dict [("all", JValue.list [])]) = true ∧
     eval_match_expr (JValue.dict []) (JValue.dict [("any", JValue.num 3)]) = false ∧
     eval_match_expr (JValue.dict []) (JValue.dict [("all", JValue.num 3)]) = false) :=
  ⟨rfl, c1_empty_combinators (JValue.dict []) (JValue.num 3) rfl⟩

/-- Counterexample to C2: a path whose value is an explicit null resolves to
the same result as a missing path (both are None), and the exists operator
reports the explicitly-null field as absent. -/
theorem c2_null_indistinguishable_counterexample :
    get_by_dotted_path (JValue.dict [("a", JValue.null)]) "a" =
      get_by_dotted_path (JValue.dict [("a", JValue.null)]) "b" ∧
    eval_op (get_by_dotted_path (JValue.dict [("a", JValue.null)]) "a")
      "exists" (JValue.bool true) = false :=
  ⟨rfl, rfl⟩

/-- C2 amended: the Path Resolver returns the value at the path with absence
represented by None, which CONFLATES an explicit null with a missing path:
for a simple key (non-blank, stripped, dot-free, not the literal
`requirement`) it returns the stored value and `.null` when the key is
missing, so the exists operator reports an explicitly-null field as absent;
any non-null stored value (explicit false included) is distinguishable from
absence and reported present. -/
theorem c2_resolver_conflates_null (m : PyDict) (k : String) (v : JValue)
    (h1 : pyStrip k = k) (h2 : k ≠ "") (h3 : k ≠ "requirement")
    (h4 : pyStartsWith k "requirement." = false)
    (h5 : pySplitDot k = [k]) (hv : v.isNull = false) :
    get_by_dotted_path (JValue.dict m) k = jget m k ∧
    eval_op JValue.null "exists" (JValue.bool true) = false ∧
    eval_op v "exists" (JValue.bool true) = true := by
  refine ⟨?_, rfl, ?_⟩
  · rw [get_by_dotted_path]
    simp only [h1, h4, h5]
    rw [if_neg h2, if_neg h3]
    simp [walkPath]
  · cases v <;> simp_all [eval_op, JValue.isNull]

/-- Witness for C2 amended at the key `a` and the stored value `false`. -/
theorem c2_resolver_conflates_null_witness :
    pyStrip "a" = "a" ∧
    (get_by_dotted_path (JValue.dict [("a", JValue.bool false)]) "a" =
       jget [("a", JValue.bool false)] "a" ∧
     eval_op JValue.null "exists" (JValue.bool true) = false ∧
     eval_op (JValue.bool false) "exists" (JValue.bool true) = true) :=
  ⟨rfl, c2_resolver_conflates_null [("a", JValue.bool false)] "a"
    (JValue.bool false) rfl (by decide) (by decide) rfl rfl rfl⟩

/-- C7: expression evaluation is total (a Lean function: it never raises) and
fail-closed: a non-dict node evaluates to false; a dict that is neither an
`any`/`all` combinator nor carries string `field` and `op` evaluates to
false; and an unknown operator tag makes the leaf evaluator return false. -/
theorem c7_fail_closed (req expr : JValue) (m : PyDict)
    (value expected : JValue) (op : String)
    (h1 : expr.isDict = false)
    (h2 : findEntry m "any" = none) (h3 : findEntry m "all" = none)
    (h4 : JValue.isStr (jget m "field") = false ∨
      JValue.isStr (jget m "op") = false)
    (h5 : op ∉ (["exists", "eq", "in", "contains", "containsText"] : List String)) :
    eval_match_expr req expr = false ∧
    eval_match_expr req (JValue.dict m) = false ∧
    eval_op value op expected = false := by
  refine ⟨?_, ?_, ?_⟩
  · cases expr <;> simp_all [eval_match_expr, JValue.isDict]
  · simp only [eval_match_expr]
    split
    · simp_all
    · simp_all
    · split
      · simp_all
      · simp_all
      · cases hf : jget m "field" <;> cases ho : jget m "op" <;>
          simp_all [JValue.isStr]
  · simp only [List.mem_cons, not_or] at h5
    obtain ⟨n1, n2, n3, n4, n5, -⟩ := h5
    simp [eval_op, n1, n2, n3, n4, n5]

/-- Witness for C7 at a concrete malformed node (a bare string), a leaf dict
whose `field` is missing, and the unknown operator tag `matches`. -/
theorem c7_fail_closed_witness :
    JValue.isDict (JValue.str "x") = false ∧
    ("matches" ∉ (["exists", "eq", "in", "contains", "containsText"] : List String)) ∧
    (eval_match_expr (JValue.dict []) (JValue.str "x") = false ∧
     eval_match_expr (JValue.dict []) (JValue.dict [("op", JValue.str "eq")]) = false ∧
     eval_op JValue.null "matches" JValue.null = false) :=
  ⟨rfl, by decide,
    c7_fail_closed (JValue.dict []) (JValue.str "x") [("op", JValue.str "eq")]
      JValue.null JValue.null "matches" rfl rfl rfl (Or.inl rfl) (by decide)⟩

theorem effective_unassigned_mem (cfg : JValue)
    (h : valid_section_ids (sections_of cfg) ≠ []) :
    effective_unassigned_id cfg ∈ valid_section_ids (sections_of cfg) := by
  have hfb : fallback_pick (valid_section_ids (sections_of cfg)) ∈
      valid_section_ids (sections_of cfg) := by
    unfold fallback_pick
    by_cases hb : "BRD-99" ∈ valid_section_ids (sections_of cfg)
    · simp [hb]
    · simp only [hb, if_false]
      cases hv : valid_section_ids (sections_of cfg) with
      | nil => exact absurd hv h
      | cons a l => simp [hv]
  unfold effective_unassigned_id
  split
  · split
    · assumption
    · exact hfb
  · exact hfb

/-- Counterexample to C6: with a taxonomy whose sections carry no string ids
the valid id set is empty, and the id recorded after coercion is the literal
`BRD-99`, which is not a member of the (empty) valid section-id set. -/
theorem c6_empty_valid_set_counterexample :
    recorded_section_id
      (sections_of (JValue.dict [("sections",
        JValue.list [JValue.dict [("title", JValue.str "x")]])]))
      (policy_of (JValue.dict [("sections",
        JValue.list [JValue.dict [("title", JValue.str "x")]])]))
      (valid_section_ids (sections_of (JValue.dict [("sections",
        JValue.list [JValue.dict [("title", JValue.str "x")]])])))
      (effective_unassigned_id (JValue.dict [("sections",
        JValue.list [JValue.dict [("title", JValue.str "x")]])]))
      (JValue.dict []) = "BRD-99" ∧
    "BRD-99" ∉ valid_section_ids (sections_of (JValue.dict [("sections",
      JValue.list [JValue.dict [("title", JValue.str "x")]])])) :=
  ⟨rfl, by decide⟩

/-- C6 amended: whenever the taxonomy's valid section-id set is non-empty,
the section id recorded after coercion is a member of it (an assigned id
outside the set is replaced by the effective unassigned id, which is the
configured fallback when valid, else `BRD-99` when valid, else a member of
the valid id set); when the valid id set is empty the recorded id is the
undefined `BRD-99`. -/
theorem c6_recorded_id_valid (cfg : JValue) (req : JValue)
    (h : valid_section_ids (sections_of cfg) ≠ []) :
    recorded_section_id (sections_of cfg) (policy_of cfg)
      (valid_section_ids (sections_of cfg)) (effective_unassigned_id cfg) req ∈
      valid_section_ids (sections_of cfg) := by
  by_cases hmem : assign_brd_section_id req (sections_of cfg) (policy_of cfg) ∈
      valid_section_ids (sections_of cfg)
  · simp [recorded_section_id, coerce_brd_section_id, hmem]
  · simp [recorded_section_id, coerce_brd_section_id, hmem,
      effective_unassigned_mem cfg h]

/-- Witness for C6 amended at a concrete one-section taxonomy. -/
theorem c6_recorded_id_valid_witness :
    valid_section_ids (sections_of (JValue.dict [("sections",
      JValue.list [JValue.dict [("id", JValue.str "S1")]])])) ≠ [] ∧
    recorded_section_id
      (sections_of (JValue.dict [("sections",
        JValue.list [JValue.dict [("id", JValue.str "S1")]])]))
      (policy_of (JValue.dict [("sections",
        JValue.list [JValue.dict [("id", JValue.str "S1")]])]))
      (valid_section_ids (sections_of (JValue.dict [("sections",
        JValue.list [JValue.dict [("id", JValue.str "S1")]])])))
      (effective_unassigned_id (JValue.dict [("sections",
        JValue.list [JValue.dict [("id", JValue.str "S1")]])]))
      (JValue.dict []) ∈
      valid_section_ids (sections_of (JValue.dict [("sections",
        JValue.list [JValue.dict [("id", JValue.str "S1")]])])) :=
  ⟨by decide, c6_recorded_id_valid
    (JValue.dict [("sections", JValue.list [JValue.dict [("id", JValue.str "S1")]])])
    (JValue.dict []) (by decide)⟩

/-- Counterexample to C8: a taxonomy configuration that parses (an object
with a non-empty `sections` list) but whose section-id set is empty raises
no error — the loader accepts it, contradicting the claim that an empty
section-id set surfaces as a hard error. -/
theorem c8_empty_id_set_accepted_counterexample :
    load_brd_sections (JValue.dict [("sections",
      JValue.list [JValue.dict [("title", JValue.str "x")]])]) =
      Except.ok (JValue.dict [("sections",
        JValue.list [JValue.dict [("title", JValue.str "x")]])]) ∧
    valid_section_ids (sections_of (JValue.dict [("sections",
      JValue.list [JValue.dict [("title", JValue.str "x")]])])) = [] :=
  ⟨rfl, rfl⟩

/-- C8 amended: the engine raises a hard error exactly when the taxonomy
configuration is structurally unparseable — not an object whose `sections`
entry is a non-empty list; in particular a parseable configuration with an
empty section-id set raises nothing (classification proceeds with the
undefined fallback `BRD-99`), and every other component of the engine is a
total function that substitutes safe defaults instead of raising. -/
theorem c8_hard_error_iff (data : JValue) :
    ((∃ c, load_brd_sections data = Except.ok c) ↔
      ∃ m ss, data = JValue.dict m ∧
        findEntry m "sections" = some (JValue.list ss) ∧ ss ≠ []) ∧
    (∀ m ss, data = JValue.dict m →
      findEntry m "sections" = some (JValue.list ss) → ss ≠ [] →
      load_brd_sections data = Except.ok data) := by
  constructor
  · constructor
    · intro hex
      obtain ⟨c, hc⟩ := hex
      cases data with
      | dict m =>
        cases hs : findEntry m "sections" with
        | some v =>
          cases v with
          | list ss =>
            cases hss : ss with
            | nil =>
              rw [hss] at hs
              simp [load_brd_sections, hs] at hc
            | cons a l =>
              rw [hss] at hs
              exact ⟨m, a :: l, rfl, hs, by simp⟩
          | null => simp [load_brd_sections, hs] at hc
          | bool b => simp [load_brd_sections, hs] at hc
          | num n => simp [load_brd_sections, hs] at hc
          | str s => simp [load_brd_sections, hs] at hc
          | dict m2 => simp [load_brd_sections, hs] at hc
        | none => simp [load_brd_sections, hs] at hc
      | null => simp [load_brd_sections] at hc
      | bool b => simp [load_brd_sections] at hc
      | num n => simp [load_brd_sections] at hc
      | str s => simp [load_brd_sections] at hc
      | list xs => simp [load_brd_sections] at hc
    · intro hex
      obtain ⟨m, ss, hd, hs, hne⟩ := hex
      subst hd
      cases ss with
      | nil => exact absurd rfl hne
      | cons a l => exact ⟨.dict m, by simp [load_brd_sections, hs]⟩
  · intro m ss hd hs hne
    subst hd
    cases ss with
    | nil => exact absurd rfl hne
    | cons a l => simp [load_brd_sections, hs]

/-- Witness for C8 amended: a concrete parseable configuration (with an
id-less section, hence an empty id set) is accepted by the loader. -/
theorem c8_hard_error_iff_witness :
    ([JValue.dict []] : List JValue) ≠ [] ∧
    load_brd_sections (JValue.dict [("sections", JValue.list [JValue.dict []])]) =
      Except.ok (JValue.dict [("sections", JValue.list [JValue.dict []])]) :=
  ⟨by simp,
    (c8_hard_error_iff (JValue.dict [("sections", JValue.list [JValue.dict []])])).2
      [("sections", JValue.list [JValue.dict []])] [JValue.dict []] rfl rfl (by simp)⟩

/-- C3: the Bibliography Table pairs the lexicographically sorted list of the
distinct reference paths (explicit relativePath entries of each scanned
requirement's references plus its origin-document key) with citation numbers
1..N in order: the path list is strictly sorted with the numbers 1..N
attached positionally, a path is numbered iff it is in the distinct set, the
table is a pure function of the distinct-path set, and permuting the
encounter order of the scanned items yields the identical table. -/
theorem c3_bibliography_numbering (items j1 j2 items1 items2 : List IndexItem)
    (hset : all_source_relpaths j1 = all_source_relpaths j2)
    (hperm : items1.Perm items2) :
    List.Sorted (· < ·) (bibliography_relpaths items) ∧
    (citation_number_by_rel items).map Prod.fst = bibliography_relpaths items ∧
    (citation_number_by_rel items).map Prod.snd =
      List.range' 1 (all_source_relpaths items).card ∧
    (∀ p : String, p ∈ all_source_relpaths items ↔
      ∃ n, (p, n) ∈ citation_number_by_rel items) ∧
    citation_number_by_rel j1 = citation_number_by_rel j2 ∧
    citation_number_by_rel items1 = citation_number_by_rel items2 := by
  have hpure : ∀ a b : List IndexItem,
      all_source_relpaths a = all_source_relpaths b →
      citation_number_by_rel a = citation_number_by_rel b := by
    intro a b hab
    unfold citation_number_by_rel bibliography_relpaths
    rw [hab]
  have hfst : (citation_number_by_rel items).map Prod.fst =
      bibliography_relpaths items := by
    unfold citation_number_by_rel
    rw [List.map_map]
    have hc : (Prod.fst ∘ fun p : Nat × String => (p.2, p.1 + 1)) = Prod.snd := rfl
    rw [hc]
    simp
  refine ⟨Finset.sort_sorted_lt _, hfst, ?_, ?_, hpure j1 j2 hset, ?_⟩
  · unfold citation_number_by_rel
    rw [List.map_map]
    have hlen : (bibliography_relpaths items).length =
        (all_source_relpaths items).card := Finset.length_sort _
    rw [← hlen]
    have hcomp : (Prod.snd ∘ fun p : Nat × String => (p.2, p.1 + 1)) =
        ((fun k => k + 1) ∘ Prod.fst) := rfl
    have h1 : (bibliography_relpaths items).enum.map Prod.fst =
        List.range (bibliography_relpaths items).length := by simp
    rw [hcomp, ← List.map_map, h1]
    simp [List.range'_eq_map_range, Nat.add_comm]
  · intro p
    have hmem : p ∈ bibliography_relpaths items ↔
        p ∈ all_source_relpaths items := by
      unfold bibliography_relpaths
      exact Finset.mem_sort _
    rw [← hmem, ← hfst]
    constructor
    · intro hp
      obtain ⟨⟨p', n⟩, hq, hq2⟩ := List.mem_map.mp hp
      subst hq2
      exact ⟨n, hq⟩
    · intro hn
      obtain ⟨n, hn⟩ := hn
      exact List.mem_map.mpr ⟨(p, n), hn, rfl⟩
  · refine hpure items1 items2 ?_
    unfold all_source_relpaths
    exact List.toFinset_eq_of_perm _ _ (hperm.flatMap_right _)

/-- Witness for C3: two items scanned in either order produce the identical
table, and a duplicated item leaves the distinct-path set (hence the table)
unchanged. -/
theorem c3_bibliography_numbering_witness :
    all_source_relpaths [⟨JValue.dict [], "docB.json"⟩] =
      all_source_relpaths
        [⟨JValue.dict [], "docB.json"⟩, ⟨JValue.dict [], "docB.json"⟩] ∧
    List.Perm
      ([⟨JValue.dict [], "docB.json"⟩, ⟨JValue.dict [], "docA.json"⟩] :
        List IndexItem)
      [⟨JValue.dict [], "docA.json"⟩, ⟨JValue.dict [], "docB.json"⟩] ∧
    citation_number_by_rel [⟨JValue.dict [], "docB.json"⟩] =
      citation_number_by_rel
        [⟨JValue.dict [], "docB.json"⟩, ⟨JValue.dict [], "docB.json"⟩] ∧
    citation_number_by_rel
        [⟨JValue.dict [], "docB.json"⟩, ⟨JValue.dict [], "docA.json"⟩] =
      citation_number_by_rel
        [⟨JValue.dict [], "docA.json"⟩, ⟨JValue.dict [], "docB.json"⟩] := by
  have h := c3_bibliography_numbering []
    [⟨JValue.dict [], "docB.json"⟩]
    [⟨JValue.dict [], "docB.json"⟩, ⟨JValue.dict [], "docB.json"⟩]
    [⟨JValue.dict [], "docB.json"⟩, ⟨JValue.dict [], "docA.json"⟩]
    [⟨JValue.dict [], "docA.json"⟩, ⟨JValue.dict [], "docB.json"⟩]
    (by decide)
    (List.Perm.swap (⟨JValue.dict [], "docA.json"⟩ : IndexItem)
      ⟨JValue.dict [], "docB.json"⟩ [])
  exact ⟨by decide,
    List.Perm.swap (⟨JValue.dict [], "docA.json"⟩ : IndexItem)
      ⟨JValue.dict [], "docB.json"⟩ [],
    h.2.2.2.2.1, h.2.2.2.2.2⟩

/-- The item occurs in the bucket for the given kind. -/
def kind_mem (gs : KindBuckets) (k : String) (it : IndexItem) : Prop :=
  ∃ its, (k, its) ∈ gs ∧ it ∈ its

theorem kind_buckets_count_insert (gs : KindBuckets) (k : String)
    (it : IndexItem) :
    kind_buckets_count (insert_kind gs k it) = kind_buckets_count gs + 1 := by
  induction gs with
  | nil => simp [insert_kind, kind_buckets_count]
  | cons e rest ih =>
    obtain ⟨k', its⟩ := e
    by_cases hk : k' = k
    · simp [insert_kind, hk, kind_buckets_count]
      omega
    · simp only [insert_kind, hk, if_false, kind_buckets_count, List.map_cons,
        List.sum_cons] at ih ⊢
      omega

theorem total_count_insert (idx : SectionIndex) (s k : String)
    (it : IndexItem) :
    total_count (insert_index idx s k it) = total_count idx + 1 := by
  induction idx with
  | nil => simp [insert_index, total_count, kind_buckets_count, insert_kind]
  | cons e rest ih =>
    obtain ⟨s', gs⟩ := e
    by_cases hs : s' = s
    · simp only [insert_index, hs, if_true, total_count, List.map_cons,
        List.sum_cons, kind_buckets_count_insert]
      omega
    · simp only [insert_index, hs, if_false, total_count, List.map_cons,
        List.sum_cons] at ih ⊢
      omega

theorem total_count_process_doc (sections : List PyDict) (policy : PyDict)
    (validIds : List String) (unassigned : String) (d : InputDoc) :
    ∀ idx : SectionIndex,
      total_count (process_doc sections policy validIds unassigned idx d) =
        total_count idx + (doc_reqs d).length := by
  unfold process_doc
  generalize doc_reqs d = reqs
  induction reqs with
  | nil => intro idx; simp
  | cons r rest ih =>
    intro idx
    simp only [List.foldl_cons, List.length_cons]
    rw [ih, total_count_insert]
    omega

theorem total_count_initial (validIds : List String) :
    total_count (initial_index validIds) = 0 := by
  unfold initial_index total_count
  induction validIds with
  | nil => simp
  | cons a l ih => simpa [kind_buckets_count] using ih

theorem total_count_foldl (sections : List PyDict) (policy : PyDict)
    (validIds : List String) (unassigned : String) :
    ∀ (docs : List InputDoc) (idx : SectionIndex),
      total_count (docs.foldl (process_doc sections policy validIds unassigned) idx) =
        total_count idx + (docs.map fun d => (doc_reqs d).length).sum := by
  intro docs
  induction docs with
  | nil => intro idx; simp
  | cons d rest ih =>
    intro idx
    simp only [List.foldl_cons, List.map_cons, List.sum_cons]
    rw [ih, total_count_process_doc]
    omega

theorem kind_mem_insert (gs : KindBuckets) (k : String) (it : IndexItem)
    (k' : String) (it' : IndexItem) :
    kind_mem (insert_kind gs k it) k' it' →
      kind_mem gs k' it' ∨ (k' = k ∧ it' = it) := by
  induction gs with
  | nil =>
    intro h
    obtain ⟨its, hits, hmem⟩ := h
    simp [insert_kind] at hits
    obtain ⟨hk, hi⟩ := hits
    subst hk
    subst hi
    simp at hmem
    exact Or.inr ⟨rfl, hmem⟩
  | cons e rest ih =>
    obtain ⟨k0, its0⟩ := e
    by_cases hk : k0 = k
    · subst hk
      intro h
      obtain ⟨its, hits, hmem⟩ := h
      simp only [insert_kind, if_true, List.mem_cons] at hits
      rcases hits with heq | hits
      · obtain ⟨h1, h2⟩ := Prod.mk.injEq .. ▸ heq
        subst h1
        subst h2
        rcases List.mem_append.mp hmem with hin | hin
        · exact Or.inl ⟨its0, List.mem_cons_self _ _, hin⟩
        · simp at hin
          exact Or.inr ⟨rfl, hin⟩
      · exact Or.inl ⟨its, List.mem_cons_of_mem _ hits, hmem⟩
    · intro h
      obtain ⟨its, hits, hmem⟩ := h
      simp only [insert_kind, hk, if_false, List.mem_cons] at hits
      rcases hits with heq | hits
      · exact Or.inl ⟨its, List.mem_cons.mpr (Or.inl heq), hmem⟩
      · rcases ih ⟨its, hits, hmem⟩ with hold | hnew
        · obtain ⟨its2, h2, h3⟩ := hold
          exact Or.inl ⟨its2, List.mem_cons_of_mem _ h2, h3⟩
        · exact Or.inr hnew

theorem item_mem_insert (idx : SectionIndex) (s k : String) (it : IndexItem)
    (s' k' : String) (it' : IndexItem) :
    item_mem (insert_index idx s k it) s' k' it' →
      item_mem idx s' k' it' ∨ (s' = s ∧ k' = k ∧ it' = it) := by
  induction idx with
  | nil =>
    intro h
    obtain ⟨gs, hgs, its, hits, hmem⟩ := h
    simp [insert_index] at hgs
    obtain ⟨hs, hg⟩ := hgs
    subst hs
    subst hg
    simp at hits
    obtain ⟨hk, hi⟩ := hits
    subst hk
    subst hi
    simp at hmem
    exact Or.inr ⟨rfl, rfl, hmem⟩
  | cons e rest ih =>
    obtain ⟨s0, gs0⟩ := e
    by_cases hs : s0 = s
    · subst hs
      intro h
      obtain ⟨gs, hgs, its, hits, hmem⟩ := h
      simp only [insert_index, if_true, List.mem_cons] at hgs
      rcases hgs with heq | hgs
      · obtain ⟨h1, h2⟩ := Prod.mk.injEq .. ▸ heq
        subst h1
        subst h2
        rcases kind_mem_insert gs0 k it k' it' ⟨its, hits, hmem⟩ with hold | hnew
        · obtain ⟨its2, h2, h3⟩ := hold
          exact Or.inl ⟨gs0, List.mem_cons_self _ _, its2, h2, h3⟩
        · exact Or.inr ⟨rfl, hnew.1, hnew.2⟩
      · exact Or.inl ⟨gs, List.mem_cons_of_mem _ hgs, its, hits, hmem⟩
    · intro h
      obtain ⟨gs, hgs, its, hits, hmem⟩ := h
      simp only [insert_index, hs, if_false, List.mem_cons] at hgs
      rcases hgs with heq | hgs
      · exact Or.inl ⟨gs, List.mem_cons.mpr (Or.inl heq), its, hits, hmem⟩
      · rcases ih ⟨gs, hgs, its, hits, hmem⟩ with hold | hnew
        · obtain ⟨gs2, h2, its2, h3, h4⟩ := hold
          exact Or.inl ⟨gs2, List.mem_cons_of_mem _ h2, its2, h3, h4⟩
        · exact Or.inr hnew

theorem item_mem_initial (validIds : List String) (s' k' : String)
    (it' : IndexItem) : ¬ item_mem (initial_index validIds) s' k' it' := by
  intro h
  obtain ⟨gs, hgs, its, hits, _⟩ := h
  unfold initial_index at hgs
  obtain ⟨sid, _, heq⟩ := List.mem_map.mp hgs
  have hgs0 : gs = [] := (Prod.mk.injEq .. ▸ heq).2.symm
  subst hgs0
  exact absurd hits (List.not_mem_nil _)

theorem item_mem_process_doc (sections : List PyDict) (policy : PyDict)
    (validIds : List String) (unassigned : String) (d : InputDoc)
    (s' k' : String) (it' : IndexItem) :
    ∀ idx : SectionIndex,
      item_mem (process_doc sections policy validIds unassigned idx d) s' k' it' →
      item_mem idx s' k' it' ∨
        (s' = recorded_section_id sections policy validIds unassigned it'.req ∧
         k' = kind_key it'.req) := by
  unfold process_doc
  generalize doc_reqs d = reqs
  induction reqs with
  | nil => intro idx h; exact Or.inl h
  | cons r rest ih =>
    intro idx h
    rw [List.foldl_cons] at h
    rcases ih _ h with hold | hnew
    · rcases item_mem_insert _ _ _ _ _ _ _ hold with h2 | h2
      · exact Or.inl h2
      · obtain ⟨h3, h4, h5⟩ := h2
        subst h5
        exact Or.inr ⟨h3, h4⟩
    · exact Or.inr hnew

theorem item_mem_build (sections : List PyDict) (policy : PyDict)
    (validIds : List String) (unassigned : String) (s' k' : String)
    (it' : IndexItem) :
    ∀ (docs : List InputDoc) (idx : SectionIndex),
      item_mem (docs.foldl (process_doc sections policy validIds unassigned) idx) s' k' it' →
      item_mem idx s' k' it' ∨
        (s' = recorded_section_id sections policy validIds unassigned it'.req ∧
         k' = kind_key it'.req) := by
  intro docs
  induction docs with
  | nil => intro idx h; exact Or.inl h
  | cons d rest ih =>
    intro idx h
    rw [List.foldl_cons] at h
    rcases ih _ h with hold | hnew
    · exact item_mem_process_doc sections policy validIds unassigned d s' k' it' idx hold
    · exact Or.inr hnew

/-- C9: total coverage of the Classification Index: the sum of the sizes of
all (section id, kind) buckets equals the number of input requirement
records (the dict entries of each document's requirements list), and every
item found in a bucket sits under exactly the keys derived from its own
requirement — the coerced assigned section id and the kind tag (the stripped
kind field when it is a non-blank string, else `Other`). -/
theorem c9_total_coverage (sections : List PyDict) (policy : PyDict)
    (validIds : List String) (unassigned : String) (docs : List InputDoc)
    (s' k' : String) (it' : IndexItem)
    (hmem : item_mem (build_index sections policy validIds unassigned docs) s' k' it') :
    total_count (build_index sections policy validIds unassigned docs) =
      (docs.map fun d => (doc_reqs d).length).sum ∧
    s' = recorded_section_id sections policy validIds unassigned it'.req ∧
    k' = kind_key it'.req := by
  constructor
  · unfold build_index
    rw [total_count_foldl, total_count_initial]
    omega
  · unfold build_index at hmem
    rcases item_mem_build sections policy validIds unassigned s' k' it' docs
      (initial_index validIds) hmem with h | h
    · exact absurd h (item_mem_initial validIds s' k' it')
    · exact h

/-- Witness for C9 at one concrete document with one requirement: the single
item sits in the bucket for its coerced section id and its kind tag, and the
index holds exactly one item. -/
theorem c9_total_coverage_witness :
    item_mem
      (build_index [] [] ["S1"] "S1"
        [⟨JValue.dict [("requirements",
            JValue.list [JValue.dict [("kind", JValue.str "Functional")]]),
          ("sourceDocument",
            JValue.dict [("relativePath", JValue.str "a.json")])], "f.json"⟩])
      "S1" "Functional"
      ⟨JValue.dict [("kind", JValue.str "Functional")], "a.json"⟩ ∧
    (total_count
      (build_index [] [] ["S1"] "S1"
        [⟨JValue.dict [("requirements",
            JValue.list [JValue.dict [("kind", JValue.str "Functional")]]),
          ("sourceDocument",
            JValue.dict [("relativePath", JValue.str "a.json")])], "f.json"⟩]) =
      ([⟨JValue.dict [("requirements",
          JValue.list [JValue.dict [("kind", JValue.str "Functional")]]),
        ("sourceDocument",
          JValue.dict [("relativePath", JValue.str "a.json")])], "f.json"⟩].map
        fun d => (doc_reqs d).length).sum ∧
     "S1" = recorded_section_id [] [] ["S1"] "S1"
       (JValue.dict [("kind", JValue.str "Functional")]) ∧
     "Functional" = kind_key (JValue.dict [("kind", JValue.str "Functional")])) := by
  have hmem : item_mem
      (build_index [] [] ["S1"] "S1"
        [⟨JValue.dict [("requirements",
            JValue.list [JValue.dict [("kind", JValue.str "Functional")]]),
          ("sourceDocument",
            JValue.dict [("relativePath", JValue.str "a.json")])], "f.json"⟩])
      "S1" "Functional"
      ⟨JValue.dict [("kind", JValue.str "Functional")], "a.json"⟩ := by
    unfold item_mem
    rw [show build_index [] [] ["S1"] "S1"
        [⟨JValue.dict [("requirements",
            JValue.list [JValue.dict [("kind", JValue.str "Functional")]]),
          ("sourceDocument",
            JValue.dict [("relativePath", JValue.str "a.json")])], "f.json"⟩] =
      [("S1", [("Functional",
        [⟨JValue.dict [("kind", JValue.str "Functional")], "a.json"⟩])])] from rfl]
    exact ⟨[("Functional",
        [⟨JValue.dict [("kind", JValue.str "Functional")], "a.json"⟩])],
      by simp, [⟨JValue.dict [("kind", JValue.str "Functional")], "a.json"⟩],
      by simp, by simp⟩
  exact ⟨hmem, c9_total_coverage [] [] ["S1"] "S1" _ "S1" "Functional" _ hmem⟩
